import Mathlib

/-!
# A shallow embedding of the libtoml parser (src/src/toml.c)

The input buffer is modelled as a list of bytes (`List Nat`, each < 256 on
real inputs).  The C code reads `*self->ptr` at the end-of-buffer position in
several places; every buffer handed to the parser by the library's loaders is
NUL-terminated, so the model's `peek` returns `0` at the end of input.

Diagnostics: the C code formats error messages as
`"<file>:<line>:<column>: <description>"`; the model does not track
line/column numbers and keeps only the error code and the description part of
the message.  Paths on which the C code has left the realm of defined
behaviour (use of a freed buffer, reads past the end of an array, a union
read at the wrong type) are marked with the dedicated `PErr.undefinedBehavior`
constructor; paths on which a C loop can never terminate are cut off by an
explicit fuel argument and marked `PErr.outOfFuel`.
-/

set_option autoImplicit false

namespace Toml

/-- ASCII/C-locale `isspace` on a byte (space, \t, \n, \v, \f, \r). -/
def isspace (c : Nat) : Bool :=
  c = 32 || c = 9 || c = 10 || c = 11 || c = 12 || c = 13

/-- ASCII `isdigit` on a byte. -/
def isdigit (c : Nat) : Bool :=
  48 ≤ c && c ≤ 57

/-- ASCII `islower` on a byte. -/
def islower (c : Nat) : Bool :=
  97 ≤ c && c ≤ 122

/-- ASCII `isupper` on a byte. -/
def isupper (c : Nat) : Bool :=
  65 ≤ c && c ≤ 90

/-- ASCII `isalpha` on a byte. -/
def isalpha (c : Nat) : Bool :=
  islower c || isupper c

/-- ASCII/C-locale `isalnum` on a byte. -/
def isalnum (c : Nat) : Bool :=
  isalpha c || isdigit c

/-- ASCII `isxdigit` on a byte. -/
def isxdigit (c : Nat) : Bool :=
  isdigit c || (97 ≤ c && c ≤ 102) || (65 ≤ c && c ≤ 70)

/-- `toml_hex_char_to_int`: value of a hexadecimal digit byte. -/
def toml_hex_char_to_int (c : Nat) : Nat :=
  if isdigit c then c - 48
  else if islower c then c - 97 + 10
  else if isupper c then c - 65 + 10
  else 0

/-- Bytes of an ASCII Lean string (used to write concrete inputs readably;
all concrete inputs in this file are pure ASCII, where the byte sequence is
the character-code sequence). -/
def strBytes (s : String) : List Nat :=
  s.data.map Char.toNat

/-- `TomlErrCode` from toml.h (TOML_OK is represented by success, not by an
error value). -/
inductive TomlErrCode where
  | err
  | os
  | nomem
  | syn
  | unicode
  deriving DecidableEq, Repr

/-- Outcome markers for the model.  `.e code msg` is a real error raised via
`toml_err_set` (the message keeps only the description, without the
`file:line:column` prefix).  `.undefinedBehavior` marks paths on which the C
code's behaviour is undefined (use-after-free, out-of-bounds read, union type
pun); `.outOfFuel` marks paths on which a C loop never terminates. -/
inductive PErr where
  | e (code : TomlErrCode) (msg : String)
  | undefinedBehavior (msg : String)
  | outOfFuel
  deriving DecidableEq, Repr

/-- Keys and string payloads are byte strings, as in the C `TomlString`. -/
abbrev Key := List Nat

/-- The `TomlValue` tagged union.  A table is its ordered `(key, value)` list
(the C `_keyvals` array), an array its ordered element list.  The C code
stores a `double` produced by `strtod` in the float variant; no claim
inspects the numeric value of a float, so the model keeps the literal string
that `toml_parse_int_or_float_or_time` hands to `strtod`.  The datetime
variant is a `struct tm` that `toml_parse_datetime` always leaves zeroed, so
it carries no payload here. -/
inductive TomlValue where
  | vTable (entries : List (Key × TomlValue))
  | vArray (elems : List TomlValue)
  | vString (bytes : List Nat)
  | vInteger (i : Int)
  | vFloat (lit : List Nat)
  | vDatetime
  | vBoolean (b : Bool)

abbrev Table := List (Key × TomlValue)

open TomlValue

/-- `toml_string_equals`: length comparison followed by a byte-by-byte scan
(the pointer-equality fast paths of the C code coincide with this on the
value level). -/
def toml_string_equals (a b : Key) : Bool :=
  if a.length ≠ b.length then false
  else a == b

theorem toml_string_equals_iff (a b : Key) : toml_string_equals a b = true ↔ a = b := by
  unfold toml_string_equals
  constructor
  · intro h
    by_cases hl : a.length ≠ b.length
    · simp [hl] at h
    · simp [hl] at h
      exact h
  · intro h
    subst h
    simp

/-- `toml_table_get_by_string`: scans the whole entry list and returns the
value of the *last* entry whose key matches (the C loop keeps overwriting
`value` on every match). -/
def toml_table_get_by_string : Table → Key → Option TomlValue
  | [], _ => none
  | e :: rest, k =>
    match toml_table_get_by_string rest k with
    | some v => some v
    | none => if toml_string_equals e.1 k then some e.2 else none

/-- Whether some entry of the table has a matching key. -/
def tableContains (t : Table) (k : Key) : Bool :=
  t.any (fun e => toml_string_equals e.1 k)

/-- `toml_table_set_by_string`: the C loop records a pointer to the value
slot of every matching entry, so `slot` ends up at the *last* match; if there
is one, only its value is replaced (the stored key object is kept), otherwise
the pair is appended at the end. -/
def toml_table_set_by_string : Table → Key → TomlValue → Table
  | [], k, v => [(k, v)]
  | e :: rest, k, v =>
    if tableContains rest k then e :: toml_table_set_by_string rest k v
    else if toml_string_equals e.1 k then (e.1, v) :: rest
    else e :: toml_table_set_by_string rest k v

/-- The keys of a table in iteration order (the order `toml_table_iter_next`
walks). -/
def keysOf (t : Table) : List Key :=
  t.map (·.1)

/-- `*self->ptr` with the NUL sentinel at the end of the buffer. -/
def peek (l : List Nat) : Nat :=
  l.headD 0

/-! ## Unicode scalar escapes (`toml_encode_unicode_scalar`) -/

/-- The hex-digit accumulation loop of `toml_encode_unicode_scalar`: reads
`n` bytes, each of which must be a hex digit, building the scalar
positionally (the scalar lives in a C `unsigned int`; 8 hex digits stay
below 2^32, so plain `Nat` accumulation is exact). -/
def scanHexDigits : Nat → List Nat → Nat → Except PErr (Nat × List Nat)
  | 0, input, acc => .ok (acc, input)
  | n + 1, input, acc =>
    match input with
    | [] => .error (.e .unicode "invalid unicode scalar")
    | c :: rest =>
      if isxdigit c then scanHexDigits n rest (acc * 16 + toml_hex_char_to_int c)
      else .error (.e .unicode "invalid unicode scalar")

/-- The byte sequence the magnitude if-chain of `toml_encode_unicode_scalar`
appends for a scalar `v ≤ 0x7fffffff` (the C code ORs the header bits onto
disjoint low bits, which is the addition below). -/
def utf8_encode_bytes (v : Nat) : List Nat :=
  if v ≤ 0x7f then [v]
  else if v ≤ 0x7ff then [0xc0 + v / 64, 0x80 + v % 64]
  else if v ≤ 0xffff then [0xe0 + v / 4096, 0x80 + v / 64 % 64, 0x80 + v % 64]
  else if v ≤ 0x1fffff then
    [0xf0 + v / 262144, 0x80 + v / 4096 % 64, 0x80 + v / 64 % 64, 0x80 + v % 64]
  else if v ≤ 0x3ffffff then
    [0xf8 + v / 16777216, 0x80 + v / 262144 % 64, 0x80 + v / 4096 % 64,
     0x80 + v / 64 % 64, 0x80 + v % 64]
  else
    [0xfc + v / 1073741824, 0x80 + v / 16777216 % 64, 0x80 + v / 262144 % 64,
     0x80 + v / 4096 % 64, 0x80 + v / 64 % 64, 0x80 + v % 64]

/-- `toml_encode_unicode_scalar`: bounds check, `n` hex digits, rejection of
the surrogate range and 0xFFFE–0xFFFF (and of scalars above 0x7FFFFFFF,
which fall off the end of the if-chain), then append the UTF-8 bytes to the
result string. -/
def toml_encode_unicode_scalar (n : Nat) (input : List Nat) (res : List Nat) :
    Except PErr (List Nat × List Nat) :=
  if input.length < n then .error (.e .unicode "invalid unicode scalar")
  else
    match scanHexDigits n input 0 with
    | .error e => .error e
    | .ok (scalar, rest) =>
      if (0xd800 ≤ scalar ∧ scalar ≤ 0xdfff) ∨ (0xfffe ≤ scalar ∧ scalar ≤ 0xffff) then
        .error (.e .unicode "invalid unicode scalar")
      else if scalar ≤ 0x7fffffff then .ok (res ++ utf8_encode_bytes scalar, rest)
      else .error (.e .unicode "invalid unicode scalar")

/-! ## Key and simple-token scanners -/

/-- A byte that may appear in a bare key. -/
def isBareKeyChar (c : Nat) : Bool :=
  isalnum c || c = 95 || c = 45

/-- `toml_parse_bare_key`: maximal run of alphanumeric, `_`, `-`. -/
def toml_parse_bare_key (input : List Nat) : List Nat × List Nat :=
  (input.takeWhile isBareKeyChar, input.dropWhile isBareKeyChar)

/-- `toml_parse_bool`.  The `true` arm checks the byte after the literal
(offset 4); the `false` arm checks `isspace` at offset 5 but the `,`/`]`/`}`
delimiters at offset 4 — offset 4 of a `false` match is always the byte `e`,
exactly as in the C source. -/
def toml_parse_bool (input : List Nat) : Option (Bool × List Nat) :=
  if input.take 4 = strBytes "true" ∧
      (input.length = 4 ∨ isspace (input.getD 4 0) ∨ input.getD 4 0 = 44 ∨
        input.getD 4 0 = 93 ∨ input.getD 4 0 = 125) then
    some (true, input.drop 4)
  else if input.take 5 = strBytes "false" ∧
      (input.length = 5 ∨ isspace (input.getD 5 0) ∨ input.getD 4 0 = 44 ∨
        input.getD 4 0 = 93 ∨ input.getD 4 0 = 125) then
    some (false, input.drop 5)
  else none

/-! ## String scanners -/

/-- `toml_parse_literal_string` (after the opening quote): verbatim bytes up
to the closing quote; a raw newline or end of input is an unterminated-string
syntax error (this function does return NULL properly on that path). -/
def toml_parse_literal_string (res : List Nat) : List Nat → Except PErr (List Nat × List Nat)
  | [] => .error (.e .syn "unterminated literal string")
  | c :: rest =>
    if c = 39 then .ok (res, rest)
    else if c = 10 then .error (.e .syn "unterminated literal string")
    else toml_parse_literal_string (res ++ [c]) rest

/-- `toml_parse_basic_string` (after the opening quote).  On the unterminated
path the C code sets the error, frees the result and then *returns the freed
buffer* (it is missing a `return NULL`); on an invalid escape byte it sets
the error, frees the result and *keeps looping* on the freed buffer.  Both
are modelled as `undefinedBehavior`.  The two `ch2 == '"'` arms of the C
if-chain coincide. -/
def toml_parse_basic_string (fuel : Nat) (res : List Nat) (input : List Nat) :
    Except PErr (List Nat × List Nat) :=
  match fuel with
  | 0 => .error .outOfFuel
  | fuel + 1 =>
    match input with
    | [] => .error (.undefinedBehavior "unterminated basic string")
    | c :: rest =>
      if c = 34 then .ok (res, rest)
      else if c = 10 then .error (.undefinedBehavior "unterminated basic string")
      else if c = 92 then
        let c2 := peek rest
        if c2 = 34 then toml_parse_basic_string fuel (res ++ [34]) rest.tail
        else if c2 = 98 then toml_parse_basic_string fuel (res ++ [8]) rest.tail
        else if c2 = 116 then toml_parse_basic_string fuel (res ++ [9]) rest.tail
        else if c2 = 110 then toml_parse_basic_string fuel (res ++ [10]) rest.tail
        else if c2 = 102 then toml_parse_basic_string fuel (res ++ [12]) rest.tail
        else if c2 = 114 then toml_parse_basic_string fuel (res ++ [13]) rest.tail
        else if c2 = 92 then toml_parse_basic_string fuel (res ++ [92]) rest.tail
        else if c2 = 117 then
          match toml_encode_unicode_scalar 4 rest.tail res with
          | .ok (res', rest') => toml_parse_basic_string fuel res' rest'
          | .error e => .error e
        else if c2 = 85 then
          match toml_encode_unicode_scalar 8 rest.tail res with
          | .ok (res', rest') => toml_parse_basic_string fuel res' rest'
          | .error e => .error e
        else .error (.undefinedBehavior "invalid escape charactor")
      else toml_parse_basic_string fuel (res ++ [c]) rest

/-- Fuelled body of `dropContinuationWs` (structural recursion on the fuel,
so that concrete runs reduce definitionally; the wrapper always supplies
enough fuel, so the `0` arm is unreachable). -/
def dropContinuationWsF : Nat → List Nat → List Nat
  | 0, l => l
  | fuel + 1, l =>
    if 3 ≤ l.length ∧ isspace (peek l) then dropContinuationWsF fuel l.tail else l

/-- The line-continuation whitespace skip of
`toml_parse_multi_line_basic_string`:
`do { toml_move_next(self); } while (self->ptr + 3 <= self->end && isspace(*self->ptr));`
after the newline itself has been consumed. -/
def dropContinuationWs (l : List Nat) : List Nat :=
  dropContinuationWsF (l.length + 1) l

/-- The scan loop of `toml_parse_multi_line_basic_string` (after the opening
delimiter and the optional leading-newline strip).  Escapes behave as in the
basic-string scanner, except that a backslash-newline consumes the newline
and the following whitespace run (subject to the `ptr + 3 <= end` guard),
appending nothing; an invalid escape byte is a proper syntax error here. -/
def toml_mlb_loop (fuel : Nat) (res : List Nat) (input : List Nat) :
    Except PErr (List Nat × List Nat) :=
  match fuel with
  | 0 => .error .outOfFuel
  | fuel + 1 =>
    match input with
    | [] => .error (.e .syn "unterminated multi-line basic string")
    | c :: rest =>
      if (c :: rest).length < 3 then
        .error (.e .syn "unterminated multi-line basic string")
      else if c = 34 ∧ rest.take 2 = [34, 34] then .ok (res, rest.drop 2)
      else if c = 92 then
        let c2 := peek rest
        if c2 = 34 then toml_mlb_loop fuel (res ++ [34]) rest.tail
        else if c2 = 98 then toml_mlb_loop fuel (res ++ [8]) rest.tail
        else if c2 = 116 then toml_mlb_loop fuel (res ++ [9]) rest.tail
        else if c2 = 110 then toml_mlb_loop fuel (res ++ [10]) rest.tail
        else if c2 = 102 then toml_mlb_loop fuel (res ++ [12]) rest.tail
        else if c2 = 114 then toml_mlb_loop fuel (res ++ [13]) rest.tail
        else if c2 = 92 then toml_mlb_loop fuel (res ++ [92]) rest.tail
        else if c2 = 117 then
          match toml_encode_unicode_scalar 4 rest.tail res with
          | .ok (res', rest') => toml_mlb_loop fuel res' rest'
          | .error e => .error e
        else if c2 = 85 then
          match toml_encode_unicode_scalar 8 rest.tail res with
          | .ok (res', rest') => toml_mlb_loop fuel res' rest'
          | .error e => .error e
        else if c2 = 10 then toml_mlb_loop fuel res (dropContinuationWs rest.tail)
        else .error (.e .syn "invalid escape charactor")
      else toml_mlb_loop fuel (res ++ [c]) rest

/-- `toml_parse_multi_line_basic_string`: strip one immediately-following
newline, then scan to the closing `"""`.  Every loop iteration consumes at
least one byte, so `length + 1` fuel always suffices. -/
def toml_parse_multi_line_basic_string (input : List Nat) :
    Except PErr (TomlValue × List Nat) :=
  let input1 := if peek input = 10 then input.tail else input
  match toml_mlb_loop (input1.length + 1) [] input1 with
  | .ok (res, rest) => .ok (vString res, rest)
  | .error e => .error e

/-- The scan loop of `toml_parse_multi_line_literal_string`. -/
def toml_mll_loop (res : List Nat) : List Nat → Except PErr (List Nat × List Nat)
  | [] => .error (.e .syn "unterminated multi-line literal string")
  | c :: rest =>
    if (c :: rest).length < 3 then
      .error (.e .syn "unterminated multi-line literal string")
    else if c = 39 ∧ rest.take 2 = [39, 39] then .ok (res, rest.drop 2)
    else toml_mll_loop (res ++ [c]) rest

/-- `toml_parse_multi_line_literal_string`: leading-newline strip, verbatim
bytes to the closing `'''`. -/
def toml_parse_multi_line_literal_string (input : List Nat) :
    Except PErr (TomlValue × List Nat) :=
  let input1 := if peek input = 10 then input.tail else input
  match toml_mll_loop [] input1 with
  | .ok (res, rest) => .ok (vString res, rest)
  | .error e => .error e

/-! ## `strtoll` / `strtod` conversion models

The strings the scanner hands to these functions consist only of `+`, `-`,
alphanumerics and `.` (whitespace is never appended), so the leading
`isspace` skip of the C library functions is omitted. -/

/-- Value of a byte as a digit in the given base (letters serve as digits
10–35, as in `strtoll`). -/
def digVal (base c : Nat) : Option Nat :=
  let v : Nat :=
    if isdigit c then c - 48
    else if islower c then c - 97 + 10
    else if isupper c then c - 65 + 10
    else 99
  if v < base then some v else none

/-- Digit-accumulation loop of `strtoll`: value and number of digit bytes
consumed. -/
def strtollDigits (base : Nat) : List Nat → Int → Nat → Int × Nat
  | [], acc, cnt => (acc, cnt)
  | c :: rest, acc, cnt =>
    match digVal base c with
    | some d => strtollDigits base rest (acc * base + d) (cnt + 1)
    | none => (acc, cnt)

/-- `long long` saturation (`strtoll` clamps to `LLONG_MIN`/`LLONG_MAX` on
overflow; accumulation is monotone in magnitude, so clamping the final value
is equivalent). -/
def llclamp (v : Int) : Int :=
  if v > 9223372036854775807 then 9223372036854775807
  else if v < -9223372036854775808 then -9223372036854775808
  else v

/-- `strtoll(s, &end, base)` on a NUL-terminated byte string: returns the
value and `end - s` (0 when no conversion is performed; a `0x` prefix with no
hex digit after it converts just the `0`). -/
def strtoll (s : List Nat) (base : Nat) : Int × Nat :=
  let neg : Bool := peek s = 45
  let signLen : Nat := if peek s = 43 ∨ peek s = 45 then 1 else 0
  let s1 := s.drop signLen
  let sgn : Int → Int := fun v => if neg then -v else v
  if base = 16 ∧ (s1.take 2 = [48, 120] ∨ s1.take 2 = [48, 88]) then
    if isxdigit (peek (s1.drop 2)) then
      let (v, cnt) := strtollDigits 16 (s1.drop 2) 0 0
      (llclamp (sgn v), signLen + 2 + cnt)
    else (0, signLen + 1)
  else
    let (v, cnt) := strtollDigits base s1 0 0
    if cnt = 0 then (0, 0) else (llclamp (sgn v), signLen + cnt)

/-- Lower-case a byte (for the case-insensitive `inf`/`nan` match of
`strtod`). -/
def lowByte (c : Nat) : Nat :=
  if isupper c then c + 32 else c

/-- How many bytes `strtod(s, &end)` consumes (`end - s`).  The numeric value
itself is IEEE double arithmetic and stays outside the model; the parser only
inspects `end`.  Covers the decimal form, `inf`/`infinity`, `nan`, and hex
floats. -/
def strtod_consumed (s : List Nat) : Nat :=
  let signLen : Nat := if peek s = 43 ∨ peek s = 45 then 1 else 0
  let s1 := s.drop signLen
  let low := s1.map lowByte
  if low.take 8 = strBytes "infinity" then signLen + 8
  else if low.take 3 = strBytes "inf" then signLen + 3
  else if low.take 3 = strBytes "nan" then signLen + 3
  else if low.take 2 = [48, 120] ∧
      (isxdigit (peek (s1.drop 2)) ∨
        (peek (s1.drop 2) = 46 ∧ isxdigit (peek (s1.drop 3)))) then
    -- hex float: 0x, hex digits, optional point and hex digits, optional p-exponent
    let ip := (s1.drop 2).takeWhile isxdigit |>.length
    let afterInt := s1.drop (2 + ip)
    let fp : Nat :=
      if peek afterInt = 46 then 1 + ((afterInt.drop 1).takeWhile isxdigit).length
      else 0
    let afterFrac := afterInt.drop fp
    let ep : Nat :=
      if peek afterFrac = 112 ∨ peek afterFrac = 80 then
        let esign : Nat :=
          if peek (afterFrac.drop 1) = 43 ∨ peek (afterFrac.drop 1) = 45 then 1 else 0
        let ed := ((afterFrac.drop (1 + esign)).takeWhile isdigit).length
        if ed = 0 then 0 else 1 + esign + ed
      else 0
    signLen + 2 + ip + fp + ep
  else
    let ip := s1.takeWhile isdigit |>.length
    let afterInt := s1.drop ip
    let fp : Nat :=
      if peek afterInt = 46 then 1 + ((afterInt.drop 1).takeWhile isdigit).length
      else 0
    if ip = 0 ∧ fp ≤ 1 then 0   -- no mantissa digit at all: no conversion
    else
      let afterFrac := afterInt.drop fp
      let ep : Nat :=
        if peek afterFrac = 101 ∨ peek afterFrac = 69 then
          let esign : Nat :=
            if peek (afterFrac.drop 1) = 43 ∨ peek (afterFrac.drop 1) = 45 then 1 else 0
          let ed := ((afterFrac.drop (1 + esign)).takeWhile isdigit).length
          if ed = 0 then 0 else 1 + esign + ed
        else 0
      signLen + ip + fp + ep

/-! ## The numeric/boolean/datetime token scanner
(`toml_parse_int_or_float_or_time`) -/

/-- The classification the scanner carries in its `type` variable
(`'i'`, `'f'`, `'t'`). -/
inductive NumType where
  | i
  | f
  | t
  deriving DecidableEq, Repr

/-- The scan loop of `toml_parse_int_or_float_or_time`.  Arguments mirror the
C locals: built string, `type`, `base`, `has_exp`, `last_char` (0 before the
first iteration).  Returns the built string, the final classification, the
final `last_char` and the unconsumed input at loop exit.  The `c = 45`
datetime-reclassification arm is kept where the C source has it — after the
sign arm, which already captures every `-`. -/
def toml_num_loop : List Nat → List Nat → NumType → Nat → Bool → Nat →
    Except PErr (List Nat × NumType × Nat × List Nat)
  | [], str, ty, _, _, lastChar => .ok (str, ty, lastChar, [])
  | c :: rest, str, ty, base, hasExp, lastChar =>
    if c = 43 ∨ c = 45 then
      if lastChar = 0 ∨ ((lastChar = 101 ∨ lastChar = 69) ∧ ¬hasExp = true) then
        toml_num_loop rest (str ++ [c]) (if lastChar ≠ 0 then NumType.f else ty) base
          (if lastChar ≠ 0 then true else hasExp) c
      else .ok (str, ty, lastChar, c :: rest)
    else if isalnum c then
      toml_num_loop rest (str ++ [c])
        (if (c = 101 ∨ c = 69) ∧ base = 10 then NumType.f else ty) base hasExp c
    else if c = 46 then
      if ty = NumType.i then toml_num_loop rest (str ++ [c]) NumType.f base hasExp c
      else .error (.e .syn "invalid float")
    else if c = 95 then
      if ty = NumType.t then .error (.e .syn "invalid datetime")
      else if ¬isalnum lastChar then .error (.e .syn "invalid integer or float")
      else toml_num_loop rest str ty base hasExp c
    else if c = 45 then
      toml_num_loop rest (str ++ [c]) NumType.t base hasExp c
    else .ok (str, ty, lastChar, c :: rest)

/-- The code after the scan loop of `toml_parse_int_or_float_or_time`: the
trailing-`_` check and the final conversion (integers check that `strtoll`
consumed the whole built string, floats that `strtod` did; datetimes go to
`toml_parse_datetime`, which ignores the string and returns a zeroed
value). -/
def toml_num_finish (base : Nat) :
    Except PErr (List Nat × NumType × Nat × List Nat) → Except PErr (TomlValue × List Nat)
  | .error e => .error e
  | .ok (str, ty, lastChar, rest) =>
    if lastChar = 95 then .error (.e .syn "invalid integer or float or datetime")
    else
      match ty with
      | .i =>
        let (v, consumed) := strtoll str base
        if consumed < str.length then .error (.e .syn "invalid integer")
        else .ok (vInteger v, rest)
      | .f =>
        if strtod_consumed str < str.length then .error (.e .syn "invalid float")
        else .ok (vFloat str, rest)
      | .t => .ok (vDatetime, rest)

/-- `toml_parse_int_or_float_or_time`: `nan`/`inf` pre-classification, base
prefix stripping, then the scan loop followed by the conversion above. -/
def toml_parse_int_or_float_or_time (input : List Nat) :
    Except PErr (TomlValue × List Nat) :=
  let ty0 : NumType :=
    if input.take 3 = strBytes "nan" ∨ input.take 3 = strBytes "inf" then .f else .i
  let ty1 : NumType :=
    if input.take 4 = strBytes "+nan" ∨ input.take 4 = strBytes "-nan" ∨
        input.take 4 = strBytes "+inf" ∨ input.take 4 = strBytes "-inf" then .f
    else ty0
  let base : Nat :=
    if input.take 2 = strBytes "0x" then 16
    else if input.take 2 = strBytes "0o" then 8
    else if input.take 2 = strBytes "0b" then 2
    else 10
  let input1 := if base = 10 then input else input.drop 2
  toml_num_finish base (toml_num_loop input1 [] ty1 base false 0)

/-! ## Table-path resolution (`toml_walk_table_path`)

The C function mutates the shared document tree and returns a pointer into
it; since the document is a single rooted tree without aliasing, the model
returns the updated root together with a locator (path of descents) for the
focused table.  `create_if_not_exist` is `TOML_TRUE` at the only call site
(`toml_parse_table`), so the model fixes it. -/

/-- One descent step of the walk: into the table stored under a key, or into
element `i` of the array stored under a key. -/
inductive LocStep where
  | intoTable (k : Key)
  | intoArray (k : Key) (i : Nat)

abbrev Loc := List LocStep

/-- Read the table a locator points at. -/
def locGet : Table → Loc → Option Table
  | t, [] => some t
  | t, .intoTable k :: loc =>
    match toml_table_get_by_string t k with
    | some (vTable t') => locGet t' loc
    | _ => none
  | t, .intoArray k i :: loc =>
    match toml_table_get_by_string t k with
    | some (vArray es) =>
      match es.get? i with
      | some (vTable t') => locGet t' loc
      | _ => none
    | _ => none

/-- Replace the table a locator points at (the functional image of mutating
through the pointer `toml_walk_table_path` returns). -/
def locSet : Table → Loc → Table → Table
  | _, [], sub => sub
  | t, .intoTable k :: loc, sub =>
    match toml_table_get_by_string t k with
    | some (vTable t') => toml_table_set_by_string t k (vTable (locSet t' loc sub))
    | _ => t
  | t, .intoArray k i :: loc, sub =>
    match toml_table_get_by_string t k with
    | some (vArray es) =>
      match es.get? i with
      | some (vTable t') =>
        toml_table_set_by_string t k (vArray (es.set i (vTable (locSet t' loc sub))))
      | _ => t
    | _ => t

/-- The `is_array == FALSE` branch of `toml_walk_table_path`: walk every
segment; absent keys are created as empty tables; a table descends; an array
descends into its *last* element (`elements[len - 1]`, undefined when the
array is empty or that element is not a table); any other value leaves
`real_table` unchanged and the walk continues in the same table. -/
def toml_walk_regular (t : Table) : List Key → Except PErr (Table × Loc)
  | [] => .ok (t, [])
  | part :: rest =>
    match toml_table_get_by_string t part with
    | none =>
      match toml_walk_regular [] rest with
      | .ok (sub, loc) =>
        .ok (toml_table_set_by_string t part (vTable sub), .intoTable part :: loc)
      | .error e => .error e
    | some (vTable t') =>
      match toml_walk_regular t' rest with
      | .ok (sub, loc) =>
        .ok (toml_table_set_by_string t part (vTable sub), .intoTable part :: loc)
      | .error e => .error e
    | some (vArray es) =>
      match es.getLast? with
      | some (vTable t') =>
        match toml_walk_regular t' rest with
        | .ok (sub, loc) =>
          .ok (toml_table_set_by_string t part
                (vArray (es.set (es.length - 1) (vTable sub))),
              .intoArray part (es.length - 1) :: loc)
        | .error e => .error e
      | _ => .error (.undefinedBehavior "regular walk reads a non-table array element")
    | some _ => toml_walk_regular t rest

/-- The `is_array == TRUE` branch of `toml_walk_table_path`.  All segments
but the last: absent keys are created as empty tables, present values are
read through `t->value.table` without any type check (a union pun whenever
the value is not a table — undefined).  The final segment: absent creates a
one-table array; a present array gets a new empty table appended; any other
present value is the "this key was not an array" syntax error.  The C loop
bound `key_path->len - 1` underflows on an empty path (the caller rejects
empty paths first). -/
def toml_walk_array (t : Table) : List Key → Except PErr (Table × Loc)
  | [] => .error (.undefinedBehavior "array-of-tables walk over an empty key path")
  | [part] =>
    match toml_table_get_by_string t part with
    | none =>
      .ok (toml_table_set_by_string t part (vArray [vTable []]), [.intoArray part 0])
    | some (vArray es) =>
      .ok (toml_table_set_by_string t part (vArray (es ++ [vTable []])),
          [.intoArray part es.length])
    | some _ => .error (.e .syn "this key was not an array")
  | part :: rest =>
    match toml_table_get_by_string t part with
    | none =>
      match toml_walk_array [] rest with
      | .ok (sub, loc) =>
        .ok (toml_table_set_by_string t part (vTable sub), .intoTable part :: loc)
      | .error e => .error e
    | some (vTable t') =>
      match toml_walk_array t' rest with
      | .ok (sub, loc) =>
        .ok (toml_table_set_by_string t part (vTable sub), .intoTable part :: loc)
      | .error e => .error e
    | some _ =>
      .error (.undefinedBehavior "array-of-tables walk reads a non-table value as a table")

/-- `toml_walk_table_path` with `create_if_not_exist = TOML_TRUE`. -/
def toml_walk_table_path (t : Table) (key_path : List Key) (is_array : Bool) :
    Except PErr (Table × Loc) :=
  if is_array then toml_walk_array t key_path else toml_walk_regular t key_path

/-! ## Value, array and inline-table parsers -/

theorem dropWhile_length_le (p : Nat → Bool) (l : List Nat) :
    (l.dropWhile p).length ≤ l.length := by
  induction l with
  | nil => simp
  | cons a t ih =>
    by_cases h : p a
    · simp only [List.dropWhile, h]
      exact Nat.le_succ_of_le ih
    · simp [List.dropWhile, h]

/-- Fuelled body of `skipWsComments` (each iteration consumes at least one
byte, so the wrapper's fuel always suffices and the `0` arm is
unreachable). -/
def skipWsCommentsF : Nat → List Nat → List Nat
  | 0, l => l
  | fuel + 1, l =>
    match l with
    | [] => []
    | c :: rest =>
      if isspace c then skipWsCommentsF fuel (rest.dropWhile isspace)
      else if c = 35 then skipWsCommentsF fuel (rest.dropWhile (fun x => x ≠ 10))
      else c :: rest

/-- The whitespace/comment skip between array elements and the separating
comma (the inner `while (1)` of `toml_parse_array`): a whitespace run or a
`#` comment (which stops *at* the newline; the following iteration's
whitespace case then consumes it). -/
def skipWsComments (l : List Nat) : List Nat :=
  skipWsCommentsF (l.length + 1) l

mutual

/-- `toml_parse_value`: lookahead dispatch.  Returns `(none, rest)` when the
C function returns `NULL` *without* raising an error (the boolean scanner's
fall-through), mirroring the callers' `toml_err()->code == TOML_OK` checks. -/
def toml_parse_value (fuel : Nat) (input : List Nat) :
    Except PErr (Option TomlValue × List Nat) :=
  match fuel with
  | 0 => .error .outOfFuel
  | fuel + 1 =>
    let ch := peek input
    if input.take 3 = [34, 34, 34] then
      match toml_parse_multi_line_basic_string (input.drop 3) with
      | .ok (v, rest) => .ok (some v, rest)
      | .error e => .error e
    else if input.take 3 = [39, 39, 39] then
      match toml_parse_multi_line_literal_string (input.drop 3) with
      | .ok (v, rest) => .ok (some v, rest)
      | .error e => .error e
    else if ch = 34 then
      match toml_parse_basic_string (input.length + 1) [] input.tail with
      | .ok (s, rest) => .ok (some (vString s), rest)
      | .error e => .error e
    else if ch = 39 then
      match toml_parse_literal_string [] input.tail with
      | .ok (s, rest) => .ok (some (vString s), rest)
      | .error e => .error e
    else if isdigit ch ∨ ch = 43 ∨ ch = 45 ∨ ch = 46 ∨ ch = 110 ∨ ch = 105 then
      match toml_parse_int_or_float_or_time input with
      | .ok (v, rest) => .ok (some v, rest)
      | .error e => .error e
    else if ch = 116 ∨ ch = 102 then
      match toml_parse_bool input with
      | some (b, rest) => .ok (some (vBoolean b), rest)
      | none => .ok (none, input)
    else if ch = 91 then toml_parse_array fuel [] input.tail
    else if ch = 123 then toml_parse_inline_table fuel [] input.tail
    else .error (.e .syn "unexpected token")

/-- `toml_parse_array` (after the opening `[`), with the elements collected
so far.  Reaching the end of input exits the C loop and *returns the array*
(an unterminated array at EOF is accepted).  A `NULL` element value without
a raised error propagates as `(none, rest)` (the C `goto error` frees the
array and returns `NULL` with the global error still `TOML_OK`). -/
def toml_parse_array (fuel : Nat) (acc : List TomlValue) (input : List Nat) :
    Except PErr (Option TomlValue × List Nat) :=
  match fuel with
  | 0 => .error .outOfFuel
  | fuel + 1 =>
    match input with
    | [] => .ok (some (vArray acc), [])
    | c :: rest =>
      if isspace c then toml_parse_array fuel acc (rest.dropWhile isspace)
      else if c = 35 then
        toml_parse_array fuel acc ((rest.dropWhile (fun x => x ≠ 10)).drop 1)
      else if c = 10 then toml_parse_array fuel acc rest   -- unreachable: isspace
      else if c = 93 then .ok (some (vArray acc), rest)
      else
        match toml_parse_value fuel (c :: rest) with
        | .ok (some v, rest') =>
          let rest'' := skipWsComments rest'
          let rest3 := if peek rest'' = 44 then rest''.drop 1 else rest''
          toml_parse_array fuel (acc ++ [v]) rest3
        | .ok (none, rest') => .ok (none, rest')
        | .error e => .error e

/-- `toml_parse_inline_table` (after the opening `{`), with the pairs set so
far.  A `}` in key position breaks *without consuming it* (only the `}`
after a parsed pair is consumed), and reaching the end of input returns the
table, both exactly as in the C loop. -/
def toml_parse_inline_table (fuel : Nat) (tbl : Table) (input : List Nat) :
    Except PErr (Option TomlValue × List Nat) :=
  match fuel with
  | 0 => .error .outOfFuel
  | fuel + 1 =>
    match input with
    | [] => .ok (some (vTable tbl), [])
    | _ =>
      let cs1 := input.dropWhile (fun c => c = 32 || c = 9)
      let ch := peek cs1
      let keyRes : Except PErr (Option (List Nat × List Nat)) :=
        if isalnum ch ∨ ch = 95 then .ok (some (toml_parse_bare_key cs1))
        else if ch = 34 then
          match toml_parse_basic_string (cs1.length + 1) [] cs1.tail with
          | .ok (k, cs2) => .ok (some (k, cs2))
          | .error e => .error e
        else if ch = 39 then
          match toml_parse_literal_string [] cs1.tail with
          | .ok (k, cs2) => .ok (some (k, cs2))
          | .error e => .error e
        else if ch = 125 then .ok none
        else .error (.e .syn "unexpected token")
      match keyRes with
      | .error e => .error e
      | .ok none => .ok (some (vTable tbl), cs1)
      | .ok (some (key, cs2)) =>
        let cs3 := cs2.dropWhile (fun c => c = 32 || c = 9)
        if cs3 = [] then .error (.e .syn "unterminated key value pair")
        else if peek cs3 ≠ 61 then .error (.e .syn "unexpected token")
        else
          let cs4 := (cs3.drop 1).dropWhile (fun c => c = 32 || c = 9)
          if cs4 = [] then .error (.e .syn "unterminated key value pair")
          else
            match toml_parse_value fuel cs4 with
            | .error e => .error e
            | .ok (none, cs5) => .ok (none, cs5)
            | .ok (some v, cs5) =>
              let tbl' := toml_table_set_by_string tbl key v
              let cs6 := cs5.dropWhile (fun c => c = 32 || c = 9)
              if peek cs6 = 44 then toml_parse_inline_table fuel tbl' (cs6.drop 1)
              else if peek cs6 = 125 then .ok (some (vTable tbl'), cs6.drop 1)
              else toml_parse_inline_table fuel tbl' cs6

end

/-- `toml_parse_key_value`: the `key = value` line loop, run inside the root
scope or a header's table.  Breaks (returning the table built so far) at end
of input or at a `[`; skips `#` comment lines; requires a newline (after
optional spaces, one comment and one `\r`) after each pair. -/
def toml_parse_key_value (fuel : Nat) (tbl : Table) (input : List Nat) :
    Except PErr (Table × List Nat) :=
  match fuel with
  | 0 => .error .outOfFuel
  | fuel + 1 =>
    match input with
    | [] => .ok (tbl, [])
    | _ =>
      let cs1 := input.dropWhile isspace
      if cs1 = [] then .ok (tbl, cs1)
      else
        let ch := peek cs1
        let keyRes : Except PErr (Option (List Nat × List Nat)) :=
          if isalnum ch ∨ ch = 95 then .ok (some (toml_parse_bare_key cs1))
          else if ch = 34 then
            match toml_parse_basic_string (cs1.length + 1) [] cs1.tail with
            | .ok (k, cs2) => .ok (some (k, cs2))
            | .error e => .error e
          else if ch = 39 then
            match toml_parse_literal_string [] cs1.tail with
            | .ok (k, cs2) => .ok (some (k, cs2))
            | .error e => .error e
          else if ch = 91 then .ok none
          else if ch = 35 then .ok none
          else .error (.e .syn "unexpected token")
        match keyRes with
        | .error e => .error e
        | .ok none =>
          if ch = 91 then .ok (tbl, cs1)
          else toml_parse_key_value fuel tbl ((cs1.tail.dropWhile (fun c => c ≠ 10)).drop 1)
        | .ok (some (key, cs2)) =>
          let cs3 := cs2.dropWhile (fun c => c = 32 || c = 9)
          if cs3 = [] then .error (.e .syn "unterminated key value pair")
          else if peek cs3 ≠ 61 then .error (.e .syn "unexpected token")
          else
            let cs4 := (cs3.drop 1).dropWhile (fun c => c = 32 || c = 9)
            if cs4 = [] then .error (.e .syn "unterminated key value pair")
            else
              match toml_parse_value fuel cs4 with
              | .error e => .error e
              | .ok (none, cs5) => .ok (tbl, cs5)
              | .ok (some v, cs5) =>
                let tbl' := toml_table_set_by_string tbl key v
                let cs6 := cs5.dropWhile (fun c => c = 32 || c = 9)
                if cs6 = [] then .ok (tbl', [])
                else
                  let cs7 := if peek cs6 = 35 then cs6.dropWhile (fun c => c ≠ 10) else cs6
                  let cs8 := if peek cs7 = 13 then cs7.drop 1 else cs7
                  if peek cs8 = 10 then toml_parse_key_value fuel tbl' (cs8.drop 1)
                  else .error (.e .syn "new line expected")

/-- The header loop of `toml_parse_table`, collecting the dotted key path up
to the closing `]` / `]]`.  The space/tab arm's `do … while` compares the
*bytes* `*self->ptr < *self->end` (a slip — `*self->end` is the NUL
sentinel), so its body runs exactly once and one byte is consumed per outer
iteration.  A `]` while `is_array` holds that is not followed by a second
`]` consumes nothing — the C loop spins forever (fuel runs out).  A byte
that can start no key segment raises "unexpected token" (the C code sets
that error and then walks on with a NULL key; the model stops at the
error). -/
def toml_parse_table_header (fuel : Nat) (is_array : Bool) (key_path : List Key)
    (input : List Nat) : Except PErr (List Key × List Nat) :=
  match fuel with
  | 0 => .error .outOfFuel
  | fuel + 1 =>
    let ch := peek input
    if ch = 32 ∨ ch = 9 then
      toml_parse_table_header fuel is_array key_path input.tail
    else if ch = 93 then
      if is_array then
        if input.take 2 = [93, 93] then .ok (key_path, input.drop 2)
        else toml_parse_table_header fuel is_array key_path input
      else .ok (key_path, input.drop 1)
    else
      let keyRes : Except PErr (List Nat × List Nat) :=
        if isalnum ch ∨ ch = 95 then .ok (toml_parse_bare_key input)
        else if ch = 34 then
          match toml_parse_basic_string (input.length + 1) [] input.tail with
          | .ok (k, cs2) => .ok (k, cs2)
          | .error e => .error e
        else if ch = 39 then
          match toml_parse_literal_string [] input.tail with
          | .ok (k, cs2) => .ok (k, cs2)
          | .error e => .error e
        else .error (.e .syn "unexpected token")
      match keyRes with
      | .error e => .error e
      | .ok (key, cs2) =>
        let cs3 := cs2.dropWhile (fun c => c = 32 || c = 9)
        let cs4 := if peek cs3 = 46 then cs3.drop 1 else cs3
        toml_parse_table_header fuel is_array (key_path ++ [key]) cs4

/-- `toml_parse_table` (after the driver consumed the opening `[`): detect
`[[`, collect the key path, reject an empty path, require a newline after
the header, resolve the path, then run the key-value loop inside the
resolved table and write its result back through the locator.  (The C code
discards `toml_parse_key_value`'s return code here and reports success with
the thread-local error left set — every later `toml_err_set` then fails its
`assert`; the model propagates the error instead.) -/
def toml_parse_table (fuel : Nat) (root : Table) (input : List Nat) :
    Except PErr (Table × List Nat) :=
  let is_array := peek input = 91
  let cs0 := if is_array then input.drop 1 else input
  match toml_parse_table_header fuel is_array [] cs0 with
  | .error e => .error e
  | .ok (key_path, cs1) =>
    if key_path = [] then .error (.e .syn "empty table name")
    else
      let cs2 := cs1.dropWhile (fun c => c = 32 || c = 9 || c = 13)
      if cs2 ≠ [] ∧ peek cs2 ≠ 10 then .error (.e .syn "new line expected")
      else
        match toml_walk_table_path root key_path is_array with
        | .error e => .error e
        | .ok (root', loc) =>
          match locGet root' loc with
          | none => .error (.undefinedBehavior "walk produced an unlocatable table")
          | some sub =>
            match toml_parse_key_value fuel sub cs2 with
            | .ok (sub', cs3) => .ok (locSet root' loc sub', cs3)
            | .error e => .error e

/-- The top-level driver loop of `toml_parse`: skip whitespace, dispatch on
`#` (comment line), `[` (table header), or a bare-key-initial byte
(key-value run).  A byte matching none of the arms is never consumed — the
C loop spins forever on it (fuel runs out). -/
def toml_parse_loop (fuel : Nat) (tbl : Table) (input : List Nat) : Except PErr Table :=
  match fuel with
  | 0 => .error .outOfFuel
  | fuel + 1 =>
    match input with
    | [] => .ok tbl
    | _ =>
      let cs1 := input.dropWhile isspace
      let ch := peek cs1
      if ch = 35 then
        toml_parse_loop fuel tbl ((cs1.tail.dropWhile (fun c => c ≠ 10)).drop 1)
      else if ch = 91 then
        match toml_parse_table fuel tbl (cs1.drop 1) with
        | .ok (tbl', cs') => toml_parse_loop fuel tbl' cs'
        | .error e => .error e
      else if isalnum ch ∨ ch = 95 ∨ ch = 45 then
        match toml_parse_key_value fuel tbl cs1 with
        | .ok (tbl', cs') => toml_parse_loop fuel tbl' cs'
        | .error e => .error e
      else if ch = 32 ∨ ch = 9 ∨ ch = 13 then   -- unreachable: isspace skipped these
        toml_parse_loop fuel tbl (cs1.dropWhile (fun c => c = 32 || c = 9 || c = 13))
      else if ch = 10 then toml_parse_loop fuel tbl cs1.tail   -- unreachable
      else toml_parse_loop fuel tbl cs1

/-- Fuel budget for a whole parse.  Every loop iteration of the C parser
either consumes input or terminates, except for the diverging arms noted
above, so any bound of this shape only cuts off genuinely infinite C
loops. -/
def parseFuel (input : List Nat) : Nat :=
  8 * input.length + 64

/-- `toml_parse`: fresh root table, run the driver loop. -/
def toml_parse (input : List Nat) : Except PErr Table :=
  toml_parse_loop (parseFuel input) [] input

/-- `toml_load_nstr`: parse the first `len` bytes of the buffer. -/
def toml_load_nstr (s : List Nat) (len : Nat) : Except PErr Table :=
  toml_parse (s.take len)

/-- `sizeof(char *)` on the 64-bit platforms this library targets. -/
def POINTER_SIZE : Nat := 8

/-- `toml_load_str`: the C body is `toml_load_nstr(str, sizeof(str))` where
`str` is the `char *` parameter, so the length passed is the pointer size,
not `strlen(str)`.  (When the string is shorter than 8 bytes the C parse
reads past the terminator — undefined; `List.take` is total and the claims
only concern longer inputs.) -/
def toml_load_str (s : List Nat) : Except PErr Table :=
  toml_load_nstr s POINTER_SIZE

/-! ## Lemmas about the ordered-table operations -/

theorem toml_string_equals_refl (k : Key) : toml_string_equals k k = true :=
  (toml_string_equals_iff k k).mpr rfl

theorem tableContains_cons (e : Key × TomlValue) (rest : Table) (k : Key) :
    tableContains (e :: rest) k = (toml_string_equals e.1 k || tableContains rest k) := by
  simp [tableContains]

theorem get_none_of_contains_false (t : Table) (k : Key)
    (h : tableContains t k = false) : toml_table_get_by_string t k = none := by
  induction t with
  | nil => rfl
  | cons e rest ih =>
    rw [tableContains_cons] at h
    have h1 : toml_string_equals e.1 k = false := by
      cases hq : toml_string_equals e.1 k <;> simp [hq] at h ⊢
    have h2 : tableContains rest k = false := by
      cases hq : tableContains rest k <;> simp [hq] at h ⊢
    simp [toml_table_get_by_string, ih h2, h1]

theorem tableGet_tableSet_self (t : Table) (k : Key) (v : TomlValue) :
    toml_table_get_by_string (toml_table_set_by_string t k v) k = some v := by
  induction t with
  | nil =>
    simp [toml_table_set_by_string, toml_table_get_by_string, toml_string_equals_refl]
  | cons e rest ih =>
    by_cases h1 : tableContains rest k
    · simp [toml_table_set_by_string, h1, toml_table_get_by_string, ih]
    · have h1' : tableContains rest k = false := by simpa using h1
      by_cases h2 : toml_string_equals e.1 k
      · simp [toml_table_set_by_string, h1', h2, toml_table_get_by_string,
          get_none_of_contains_false rest k h1']
      · have h2' : toml_string_equals e.1 k = false := by simpa using h2
        simp [toml_table_set_by_string, h1', h2', toml_table_get_by_string, ih]

theorem keysOf_set_of_contains (t : Table) (k : Key) (v : TomlValue)
    (h : tableContains t k = true) :
    keysOf (toml_table_set_by_string t k v) = keysOf t := by
  induction t with
  | nil => simp [tableContains] at h
  | cons e rest ih =>
    rw [tableContains_cons] at h
    by_cases h1 : tableContains rest k
    · have ih' := ih h1
      simp only [keysOf] at ih'
      simp [toml_table_set_by_string, h1, keysOf, ih']
    · have h1' : tableContains rest k = false := by simpa using h1
      have h2 : toml_string_equals e.1 k = true := by
        cases hq : toml_string_equals e.1 k
        · rw [hq, h1'] at h; simp at h
        · rfl
      simp [toml_table_set_by_string, h1', h2, keysOf]

theorem keysOf_set_of_not_contains (t : Table) (k : Key) (v : TomlValue)
    (h : tableContains t k = false) :
    keysOf (toml_table_set_by_string t k v) = keysOf t ++ [k] := by
  induction t with
  | nil => simp [toml_table_set_by_string, keysOf]
  | cons e rest ih =>
    rw [tableContains_cons] at h
    have h1 : toml_string_equals e.1 k = false := by
      cases hq : toml_string_equals e.1 k <;> simp [hq] at h ⊢
    have h2 : tableContains rest k = false := by
      cases hq : tableContains rest k <;> simp [hq] at h ⊢
    have ih' := ih h2
    simp only [keysOf] at ih'
    simp [toml_table_set_by_string, h1, h2, keysOf, ih']

theorem contains_iff_mem_keysOf (t : Table) (k : Key) :
    tableContains t k = true ↔ k ∈ keysOf t := by
  induction t with
  | nil => simp [tableContains, keysOf]
  | cons e rest ih =>
    rw [tableContains_cons]
    constructor
    · intro h
      cases hq : toml_string_equals e.1 k
      · rw [hq] at h
        simp at h
        exact List.mem_cons_of_mem _ (ih.mp h)
      · have := (toml_string_equals_iff e.1 k).mp hq
        simp [keysOf, this]
    · intro h
      rcases List.mem_cons.mp h with h | h
      · have : toml_string_equals e.1 k = true := (toml_string_equals_iff e.1 k).mpr h.symm
        simp [this]
      · simp [ih.mpr h]

/-! ## Claims about the document model (C7, C9) -/

/-- **C7.**  A later `toml_table_set_by_string` on an existing key replaces
the value in place: the key sequence (hence iteration order, every key's
position, and the table's length) is unchanged, the value stored under the
key becomes the new one and no duplicate entry appears; and for any table
whose keys are pairwise distinct, they remain pairwise distinct after any
set operation. -/
theorem claim_C7 :
    (∀ (t : Table) (k : Key) (v : TomlValue), tableContains t k = true →
      keysOf (toml_table_set_by_string t k v) = keysOf t ∧
      (toml_table_set_by_string t k v).length = t.length ∧
      toml_table_get_by_string (toml_table_set_by_string t k v) k = some v) ∧
    (∀ (t : Table) (k : Key) (v : TomlValue), (keysOf t).Nodup →
      (keysOf (toml_table_set_by_string t k v)).Nodup) := by
  constructor
  · intro t k v h
    refine ⟨keysOf_set_of_contains t k v h, ?_, tableGet_tableSet_self t k v⟩
    have hlen := congrArg List.length (keysOf_set_of_contains t k v h)
    simpa [keysOf] using hlen
  · intro t k v h
    cases hc : tableContains t k
    · rw [keysOf_set_of_not_contains t k v hc]
      have hk : k ∉ keysOf t := fun hm => by
        have := (contains_iff_mem_keysOf t k).mpr hm
        rw [hc] at this
        exact Bool.false_ne_true this
      simpa [List.nodup_append] using ⟨h, hk⟩
    · rw [keysOf_set_of_contains t k v hc]
      exact h

/-- Witness for C7 at a concrete table: replacing the value of the existing
key `a` keeps the key list, the length, and stores the new value. -/
theorem claim_C7_witness :
    keysOf (toml_table_set_by_string [(strBytes "a", vInteger 1)] (strBytes "a") (vInteger 2)) =
      keysOf [(strBytes "a", vInteger 1)] ∧
    (toml_table_set_by_string [(strBytes "a", vInteger 1)] (strBytes "a") (vInteger 2)).length =
      ([(strBytes "a", vInteger 1)] : Table).length ∧
    toml_table_get_by_string
        (toml_table_set_by_string [(strBytes "a", vInteger 1)] (strBytes "a") (vInteger 2))
        (strBytes "a") = some (vInteger 2) :=
  claim_C7.1 [(strBytes "a", vInteger 1)] (strBytes "a") (vInteger 2) (by rfl)

/-- **C9.**  `toml_table_get_by_string` after `toml_table_set_by_string`
returns exactly the value just set, for any query key that is byte-for-byte
equal to the set key, whether the set appended or replaced. -/
theorem claim_C9 (t : Table) (k k' : Key) (v : TomlValue)
    (h : toml_string_equals k k' = true) :
    toml_table_get_by_string (toml_table_set_by_string t k v) k' = some v := by
  have hk : k = k' := (toml_string_equals_iff k k').mp h
  subst hk
  exact tableGet_tableSet_self t k v

/-- Witness for C9: get-after-set on a concrete two-entry table. -/
theorem claim_C9_witness :
    toml_string_equals (strBytes "k") (strBytes "k") = true ∧
    toml_table_get_by_string
        (toml_table_set_by_string [(strBytes "a", vInteger 1)] (strBytes "k") (vBoolean true))
        (strBytes "k") = some (vBoolean true) :=
  ⟨by rfl, claim_C9 [(strBytes "a", vInteger 1)] (strBytes "k") (strBytes "k")
    (vBoolean true) (by rfl)⟩

/-! ## Claims about the numeric/boolean scanner (C4, C5, C6) -/

/-- Whether a scanner result is a successfully scanned DateTime value. -/
def isDatetimeResult : Except PErr (TomlValue × List Nat) → Bool
  | .ok (vDatetime, _) => true
  | _ => false

theorem toml_num_loop_no_t :
    ∀ (input str : List Nat) (ty : NumType) (base : Nat) (hasExp : Bool) (lastChar : Nat),
      ty ≠ NumType.t →
      ∀ str' ty' lc' rest,
        toml_num_loop input str ty base hasExp lastChar = .ok (str', ty', lc', rest) →
        ty' ≠ NumType.t := by
  intro input
  induction input with
  | nil =>
    intro str ty base hasExp lastChar hty str' ty' lc' rest h
    simp only [toml_num_loop, Except.ok.injEq, Prod.mk.injEq] at h
    obtain ⟨-, h2, -⟩ := h
    exact h2 ▸ hty
  | cons c cs ih =>
    intro str ty base hasExp lastChar hty str' ty' lc' rest h
    simp only [toml_num_loop] at h
    split_ifs at h with h1 h2 h3 h4 h5 h6 h7 h8 h9 h10 <;>
      first
      | exact ih _ _ _ _ _ hty _ _ _ _ h
      | exact ih _ _ _ _ _ (fun hh => NumType.noConfusion hh) _ _ _ _ h
      | exact Except.noConfusion h
      | (simp only [Except.ok.injEq, Prod.mk.injEq] at h
         obtain ⟨-, hteq, -⟩ := h
         exact hteq ▸ hty)
      | exact absurd (Or.inr ‹c = 45›) h1

theorem toml_num_finish_not_datetime (base : Nat)
    (res : Except PErr (List Nat × NumType × Nat × List Nat))
    (h : ∀ str ty lc rest, res = .ok (str, ty, lc, rest) → ty ≠ NumType.t) :
    isDatetimeResult (toml_num_finish base res) = false := by
  match res with
  | .error e => rfl
  | .ok (str, ty, lc, rest) =>
    have hty := h str ty lc rest rfl
    cases ty with
    | t => exact absurd rfl hty
    | i =>
      simp only [toml_num_finish]
      split_ifs <;> simp [isDatetimeResult]
    | f =>
      simp only [toml_num_finish]
      split_ifs <;> simp [isDatetimeResult]

/-- **C4 (code bug).**  The datetime-reclassification arm of the scan loop is
shadowed by the sign arm, which already captures every `-` and breaks out of
the loop: the scanner can never produce a DateTime value.  At the failing
input `x = 1979-05-27`, the scanner returns the Integer 1979 with `-05-27`
unconsumed, and the whole parse then fails with "new line expected" — the
claim's reclassification never happens. -/
theorem claim_C4 :
    (∀ input : List Nat, isDatetimeResult (toml_parse_int_or_float_or_time input) = false) ∧
    toml_parse_int_or_float_or_time (strBytes "1979-05-27\n") =
      .ok (vInteger 1979, strBytes "-05-27\n") ∧
    toml_parse (strBytes "x = 1979-05-27\n") = .error (.e .syn "new line expected") := by
  refine ⟨?_, by rfl, by rfl⟩
  intro input
  unfold toml_parse_int_or_float_or_time
  apply toml_num_finish_not_datetime
  intro str ty lc rest h
  exact toml_num_loop_no_t _ _ _ _ _ _ (by split_ifs <;> simp) _ _ _ _ h

/-- **C5 (code bug).**  The `false` arm of `toml_parse_bool` checks the
`,`/`]`/`}` delimiters at offset 4 — which is always the byte `e` of
`false` — instead of offset 5, so `false` followed by `,`, `]` or `}` is
*not* scanned as a boolean (while `true` and whitespace/end-of-input
delimited `false` work); the array element `[false]` then makes the whole
parse fail with "unexpected token" instead of producing the boolean. -/
theorem claim_C5 :
    toml_parse_bool (strBytes "false]") = none ∧
    toml_parse_bool (strBytes "false\x7d") = none ∧
    toml_parse_bool (strBytes "false,1]") = none ∧
    toml_parse_bool (strBytes "false ") = some (false, [32]) ∧
    toml_parse_bool (strBytes "false") = some (false, []) ∧
    toml_parse_bool (strBytes "true]") = some (true, [93]) ∧
    toml_parse_bool (strBytes "true,1]") = some (true, strBytes ",1]") ∧
    toml_parse (strBytes "x = [false]\n") = .error (.e .syn "unexpected token") ∧
    toml_parse (strBytes "x = [true]\n") =
      .ok [(strBytes "x", vArray [vBoolean true])] :=
  ⟨by rfl, by rfl, by rfl, by rfl, by rfl, by rfl, by rfl, by rfl, by rfl⟩

/-! ## Claim C8: `toml_load_str` length bug -/

/-- **C8.**  `toml_load_str` forwards `sizeof` of its pointer parameter — 8
bytes on the 64-bit platforms this library targets — as the input length, so
only the first 8 bytes of the string are parsed; on the 11-byte input
`a=1 b=2 c=3` the returned document has keys `a` and `b` but omits `c`,
which `toml_load_nstr(s, strlen(s))` does include. -/
theorem claim_C8 :
    (∀ s : List Nat, toml_load_str s = toml_parse (s.take POINTER_SIZE)) ∧
    POINTER_SIZE = 8 ∧
    toml_load_str (strBytes "a=1\nb=2\nc=3") =
      .ok [(strBytes "a", vInteger 1), (strBytes "b", vInteger 2)] ∧
    toml_load_nstr (strBytes "a=1\nb=2\nc=3") (strBytes "a=1\nb=2\nc=3").length =
      .ok [(strBytes "a", vInteger 1), (strBytes "b", vInteger 2),
           (strBytes "c", vInteger 3)] ∧
    toml_table_get_by_string
      [(strBytes "a", vInteger 1), (strBytes "b", vInteger 2)] (strBytes "c") = none :=
  ⟨fun _ => rfl, rfl, by rfl, by rfl, by rfl⟩

/-! ## Claim C2: unicode scalar escapes -/

/-- Positional value of a hex digit string. -/
def hexVal (ds : List Nat) : Nat :=
  ds.foldl (fun a d => a * 16 + toml_hex_char_to_int d) 0

theorem scanHexDigits_all_hex :
    ∀ (ds rest : List Nat) (acc : Nat), (∀ d ∈ ds, isxdigit d = true) →
      scanHexDigits ds.length (ds ++ rest) acc =
        .ok (ds.foldl (fun a d => a * 16 + toml_hex_char_to_int d) acc, rest) := by
  intro ds
  induction ds with
  | nil => intro rest acc _; rfl
  | cons d ds ih =>
    intro rest acc hhex
    have hd : isxdigit d = true := hhex d (List.mem_cons_self d ds)
    simp only [List.length_cons, List.cons_append, scanHexDigits, hd, if_true, List.foldl_cons]
    exact ih rest (acc * 16 + toml_hex_char_to_int d)
      (fun x hx => hhex x (List.mem_cons_of_mem d hx))

/-- **C2.**  A `\u`/`\U` escape consumes exactly `n` (4 or 8 — the statement
holds for every `n`) hex digits, decodes them positionally into a scalar,
rejects the surrogate range 0xD800–0xDFFF and 0xFFFE–0xFFFF (and scalars
past the end of the 6-byte form) with an invalid-unicode error, and
otherwise appends the UTF-8 encoding whose byte count (1–6) is chosen by
the scalar's magnitude.  Concretely, after the opening quote of a basic
string, `\u0041"` yields the byte 0x41, `\u00e9"` the two UTF-8 bytes of
U+00E9, `\U0001F600"` the four UTF-8 bytes of U+1F600, and `\ud800"` fails
with the invalid-unicode error. -/
theorem claim_C2 :
    (∀ (n : Nat) (ds rest res : List Nat), ds.length = n →
      (∀ d ∈ ds, isxdigit d = true) →
      toml_encode_unicode_scalar n (ds ++ rest) res =
        (if (0xd800 ≤ hexVal ds ∧ hexVal ds ≤ 0xdfff) ∨
            (0xfffe ≤ hexVal ds ∧ hexVal ds ≤ 0xffff) then
          .error (.e .unicode "invalid unicode scalar")
        else if hexVal ds ≤ 0x7fffffff then
          .ok (res ++ utf8_encode_bytes (hexVal ds), rest)
        else .error (.e .unicode "invalid unicode scalar"))) ∧
    (∀ v : Nat,
      (utf8_encode_bytes v).length =
        if v ≤ 0x7f then 1 else if v ≤ 0x7ff then 2 else if v ≤ 0xffff then 3
        else if v ≤ 0x1fffff then 4 else if v ≤ 0x3ffffff then 5 else 6) ∧
    toml_parse_basic_string 16 [] (strBytes "\\u0041\"") = .ok ([0x41], []) ∧
    toml_parse_basic_string 16 [] (strBytes "\\u00e9\"") = .ok ([0xc3, 0xa9], []) ∧
    toml_parse_basic_string 16 [] (strBytes "\\U0001F600\"") =
      .ok ([0xf0, 0x9f, 0x98, 0x80], []) ∧
    toml_parse_basic_string 16 [] (strBytes "\\ud800\"") =
      .error (.e .unicode "invalid unicode scalar") ∧
    toml_parse (strBytes "x = \"\\u0041\"\n") = .ok [(strBytes "x", vString [0x41])] := by
  refine ⟨?_, ?_, by rfl, by rfl, by rfl, by rfl, by rfl⟩
  · intro n ds rest res hlen hhex
    subst hlen
    have hguard : ¬((ds ++ rest).length < ds.length) := by
      simp [List.length_append]
    simp only [toml_encode_unicode_scalar, if_neg hguard,
      scanHexDigits_all_hex ds rest 0 hhex]
    rfl
  · intro v
    unfold utf8_encode_bytes
    split_ifs <;> rfl

/-- Witness for C2 at two concrete escapes: the hex digits `0041` encode to
the single byte 0x41, the surrogate `d800` raises the invalid-unicode
error. -/
theorem claim_C2_witness :
    toml_encode_unicode_scalar 4 (strBytes "0041" ++ []) [] = .ok ([65], []) ∧
    toml_encode_unicode_scalar 4 (strBytes "d800" ++ []) [] =
      .error (.e .unicode "invalid unicode scalar") :=
  ⟨(claim_C2.1 4 (strBytes "0041") [] [] rfl (by decide)).trans (by rfl),
   (claim_C2.1 4 (strBytes "d800") [] [] rfl (by decide)).trans (by rfl)⟩

/-! ## Claim C3: line continuation in multi-line basic strings -/

theorem dropContinuationWsF_spec :
    ∀ (ws : List Nat) (fuel : Nat) (c : Nat) (rest : List Nat),
      ws.length < fuel → (∀ w ∈ ws, isspace w = true) → isspace c = false →
      3 ≤ (c :: rest).length →
      dropContinuationWsF fuel (ws ++ c :: rest) = c :: rest := by
  intro ws
  induction ws with
  | nil =>
    intro fuel c rest hfuel hws hc hlen
    match fuel, hfuel with
    | fuel + 1, _ =>
      simp [dropContinuationWsF, peek, hc]
  | cons w ws ih =>
    intro fuel c rest hfuel hws hc hlen
    match fuel, hfuel with
    | fuel + 1, hfuel =>
      have hw : isspace w = true := hws w (List.mem_cons_self w ws)
      have hrest : 2 ≤ rest.length := by simpa using hlen
      have hcond : 3 ≤ (w :: (ws ++ c :: rest)).length ∧
          isspace (peek (w :: (ws ++ c :: rest))) = true := by
        refine ⟨?_, by simpa [peek] using hw⟩
        simp only [List.length_cons, List.length_append]
        omega
      simp only [List.cons_append, dropContinuationWsF, if_pos hcond, List.tail_cons]
      refine ih fuel c rest ?_ (fun x hx => hws x (List.mem_cons_of_mem w hx)) hc hlen
      simp only [List.length_cons] at hfuel
      omega

theorem dropContinuationWs_spec (ws : List Nat) (c : Nat) (rest : List Nat)
    (hws : ∀ w ∈ ws, isspace w = true) (hc : isspace c = false)
    (hlen : 3 ≤ (c :: rest).length) :
    dropContinuationWs (ws ++ c :: rest) = c :: rest := by
  unfold dropContinuationWs
  refine dropContinuationWsF_spec ws _ c rest ?_ hws hc hlen
  simp only [List.length_append, List.length_cons]
  omega

/-- **C3.**  In a multi-line basic string, a backslash immediately followed
by a newline consumes the newline and the whole following whitespace run up
to the next non-whitespace byte, appending nothing: one loop step on
`\`, newline, whitespace, then non-whitespace `c` continues at `c` with the
result string unchanged.  Concretely `"""a\⏎   b"""` parses to `"ab"`. -/
theorem claim_C3 :
    (∀ (fuel : Nat) (res ws : List Nat) (c : Nat) (rest' : List Nat),
      (∀ w ∈ ws, isspace w = true) → isspace c = false → 3 ≤ (c :: rest').length →
      toml_mlb_loop (fuel + 1) res (92 :: 10 :: (ws ++ c :: rest')) =
        toml_mlb_loop fuel res (c :: rest')) ∧
    toml_parse (strBytes "k = \"\"\"a\\\n   b\"\"\"\n") =
      .ok [(strBytes "k", vString (strBytes "ab"))] := by
  refine ⟨?_, by rfl⟩
  intro fuel res ws c rest' hws hc hlen
  have h3 : ¬((92 : Nat) :: 10 :: (ws ++ c :: rest')).length < 3 := by
    simp only [List.length_cons, List.length_append]
    omega
  simp only [toml_mlb_loop, if_neg h3, peek, List.headD, List.tail_cons]
  norm_num
  exact congrArg (toml_mlb_loop fuel res) (dropContinuationWs_spec ws c rest' hws hc hlen)

/-- Witness for C3: a continuation step over three spaces before `b` (with
enough input left for the closing delimiter), applied at fuel 20. -/
theorem claim_C3_witness :
    toml_mlb_loop 21 [97] (92 :: 10 :: ([32, 32, 32] ++ 98 :: strBytes "\"\"\"")) =
      toml_mlb_loop 20 [97] (98 :: strBytes "\"\"\"") :=
  claim_C3.1 20 [97] [32, 32, 32] 98 (strBytes "\"\"\"") (by decide) (by decide) (by decide)

/-! ## Claim C6: digit-group separators -/

theorem isalnum_ne_95 (c : Nat) (h : isalnum c = true) : c ≠ 95 := by
  intro hc
  subst hc
  simp [isalnum, isalpha, islower, isupper, isdigit] at h

theorem toml_num_loop_no_underscore :
    ∀ (input str : List Nat) (ty : NumType) (base : Nat) (hasExp : Bool) (lastChar : Nat),
      95 ∉ str →
      ∀ str' ty' lc' rest,
        toml_num_loop input str ty base hasExp lastChar = .ok (str', ty', lc', rest) →
        95 ∉ str' := by
  intro input
  induction input with
  | nil =>
    intro str ty base hasExp lastChar hstr str' ty' lc' rest h
    simp only [toml_num_loop, Except.ok.injEq, Prod.mk.injEq] at h
    obtain ⟨hs, -⟩ := h
    exact hs ▸ hstr
  | cons c cs ih =>
    intro str ty base hasExp lastChar hstr str' ty' lc' rest h
    simp only [toml_num_loop] at h
    split_ifs at h with h1 h2 h3 h4 h5 h6 h7 h8 h9 h10 <;>
      first
      | exact ih _ _ _ _ _
          (by
            intro hm
            rcases List.mem_append.mp hm with hm | hm
            · exact hstr hm
            · rcases List.mem_singleton.mp hm with hm
              first
              | (rcases h1 with h1 | h1 <;> omega)
              | exact isalnum_ne_95 c ‹isalnum c = true› hm.symm
              | omega)
          _ _ _ _ h
      | exact ih _ _ _ _ _ hstr _ _ _ _ h
      | exact Except.noConfusion h
      | (simp only [Except.ok.injEq, Prod.mk.injEq] at h
         obtain ⟨hs, -⟩ := h
         exact hs ▸ hstr)

/-- **C6.**  An `_` in a numeric token is accepted exactly when the
immediately preceding character is alphanumeric (otherwise the scan fails
with a syntax error), and an accepted `_` is dropped: it is never appended
to the string handed to the final conversion.  Concretely `1_000` converts
to the integer 1000 and `1_2_3` to 123, while a trailing or doubled `_`
fails with a syntax error and a leading `_` is not even a value start
("unexpected token"). -/
theorem claim_C6 :
    (∀ (rest str : List Nat) (ty : NumType) (base : Nat) (hasExp : Bool) (lastChar : Nat),
      toml_num_loop (95 :: rest) str ty base hasExp lastChar =
        if ty = NumType.t then .error (.e .syn "invalid datetime")
        else if isalnum lastChar then toml_num_loop rest str ty base hasExp 95
        else .error (.e .syn "invalid integer or float")) ∧
    (∀ (input str : List Nat) (ty : NumType) (base : Nat) (hasExp : Bool) (lastChar : Nat),
      95 ∉ str →
      ∀ str' ty' lc' rest,
        toml_num_loop input str ty base hasExp lastChar = .ok (str', ty', lc', rest) →
        95 ∉ str') ∧
    toml_parse_int_or_float_or_time (strBytes "1_000 ") = .ok (vInteger 1000, [32]) ∧
    toml_parse_int_or_float_or_time (strBytes "1_2_3 ") = .ok (vInteger 123, [32]) ∧
    toml_parse_int_or_float_or_time (strBytes "1_ ") =
      .error (.e .syn "invalid integer or float or datetime") ∧
    toml_parse_int_or_float_or_time (strBytes "1__2 ") =
      .error (.e .syn "invalid integer or float") ∧
    toml_parse (strBytes "x = _1\n") = .error (.e .syn "unexpected token") := by
  refine ⟨?_, toml_num_loop_no_underscore, by rfl, by rfl, by rfl, by rfl, by rfl⟩
  intro rest str ty base hasExp lastChar
  have ha : isalnum 95 = false := by decide
  by_cases hlc : isalnum lastChar <;>
    by_cases hty : ty = NumType.t <;>
      simp [toml_num_loop, ha, hlc, hty]

/-- Witness for C6: the scan of `1_0` never puts the separator into the
built string. -/
theorem claim_C6_witness :
    toml_num_loop (strBytes "1_0") [] NumType.i 10 false 0 =
      .ok ([49, 48], NumType.i, 48, []) ∧
    95 ∉ ([49, 48] : List Nat) :=
  ⟨by rfl,
   claim_C6.2.1 (strBytes "1_0") [] NumType.i 10 false 0 (by simp) [49, 48]
     NumType.i 48 [] (by rfl)⟩

/-! ## Claim C10: keys cannot start with a dash -/

theorem dropWhile_append_all (p : Nat → Bool) :
    ∀ (ws l : List Nat), (∀ w ∈ ws, p w = true) →
      List.dropWhile p (ws ++ l) = List.dropWhile p l := by
  intro ws
  induction ws with
  | nil => intro l _; rfl
  | cons w ws ih =>
    intro l hws
    have hw : p w = true := hws w (List.mem_cons_self w ws)
    simp only [List.cons_append, List.dropWhile_cons, hw, if_true]
    exact ih l (fun x hx => hws x (List.mem_cons_of_mem w hx))

theorem toml_parse_key_value_dash (fuel : Nat) (tbl : Table) (rest : List Nat) :
    toml_parse_key_value (fuel + 1) tbl (45 :: rest) =
      .error (.e .syn "unexpected token") := by
  simp [toml_parse_key_value, peek, isspace, isalnum, isalpha, islower, isupper, isdigit]

/-- **C10.**  Any input whose first non-whitespace byte is `-` fails with the
"unexpected token" syntax error: the driver dispatches it to the key-value
parser (`-` is in the driver's bare-key-initial set), but that parser's key
dispatch accepts only alphanumerics, `_`, `"` or `'` as the first key
character.  Concretely `-a = 1` fails with "unexpected token". -/
theorem claim_C10 :
    (∀ ws rest : List Nat, (∀ w ∈ ws, isspace w = true) →
      toml_parse (ws ++ 45 :: rest) = .error (.e .syn "unexpected token")) ∧
    toml_parse (strBytes "-a = 1") = .error (.e .syn "unexpected token") := by
  refine ⟨?_, by rfl⟩
  intro ws rest hws
  unfold toml_parse parseFuel
  obtain ⟨f, hf⟩ : ∃ f, 8 * (ws ++ 45 :: rest).length + 64 = (f + 1) + 1 :=
    ⟨8 * (ws ++ 45 :: rest).length + 62, by omega⟩
  rw [hf]
  have hdrop : List.dropWhile isspace (ws ++ 45 :: rest) = 45 :: rest := by
    rw [dropWhile_append_all isspace ws _ hws]
    simp [List.dropWhile_cons, isspace]
  cases ws with
  | nil =>
    simp [toml_parse_loop, peek, isspace, isalnum, isalpha, islower, isupper, isdigit,
      toml_parse_key_value_dash f]
  | cons w ws' =>
    simp only [List.cons_append, toml_parse_loop]
    rw [show List.dropWhile isspace (w :: (ws' ++ 45 :: rest)) = 45 :: rest from hdrop]
    simp [peek, isalnum, isalpha, islower, isupper, isdigit,
      toml_parse_key_value_dash f]

/-- Witness for C10: a dash after one space at the top level. -/
theorem claim_C10_witness :
    toml_parse ([32] ++ 45 :: strBytes "a = 1") = .error (.e .syn "unexpected token") :=
  claim_C10.1 [32] (strBytes "a = 1") (by decide)

/-! ## Claim C1: array-of-tables headers -/

/-- **C1.**  At the final segment `k` of an array-of-tables header, the path
walk behaves as specified: if `k` is absent, a one-element array holding a
new empty table is inserted and that table (located by the returned locator)
becomes active; if `k` holds an array, a new empty table is appended and
becomes active; if `k` holds anything else, the parse fails with the
"this key was not an array" syntax error.  End to end,
`[[a]] x=1 [[a]] x=2` yields a root whose key `a` holds an array of two
tables with `x = 1` and `x = 2` in that order. -/
theorem claim_C1 :
    (∀ (t : Table) (k : Key),
      (toml_table_get_by_string t k = none →
        toml_walk_array t [k] =
          .ok (toml_table_set_by_string t k (vArray [vTable []]), [.intoArray k 0]) ∧
        locGet (toml_table_set_by_string t k (vArray [vTable []]))
          [.intoArray k 0] = some []) ∧
      (∀ es, toml_table_get_by_string t k = some (vArray es) →
        toml_walk_array t [k] =
          .ok (toml_table_set_by_string t k (vArray (es ++ [vTable []])),
               [.intoArray k es.length]) ∧
        locGet (toml_table_set_by_string t k (vArray (es ++ [vTable []])))
          [.intoArray k es.length] = some []) ∧
      (∀ v, toml_table_get_by_string t k = some v → (∀ es, v ≠ vArray es) →
        toml_walk_array t [k] = .error (.e .syn "this key was not an array"))) ∧
    toml_parse (strBytes "[[a]]\nx=1\n[[a]]\nx=2\n") =
      .ok [(strBytes "a",
            vArray [vTable [(strBytes "x", vInteger 1)],
                    vTable [(strBytes "x", vInteger 2)]])] := by
  refine ⟨fun t k => ⟨?_, ?_, ?_⟩, by rfl⟩
  · intro h
    refine ⟨by simp [toml_walk_array, h], ?_⟩
    simp [locGet, tableGet_tableSet_self]
  · intro es h
    refine ⟨by simp [toml_walk_array, h], ?_⟩
    simp [locGet, tableGet_tableSet_self, List.getElem?_concat_length]
  · intro v h hne
    cases v with
    | vArray es => exact absurd rfl (hne es)
    | vTable entries => simp [toml_walk_array, h]
    | vString b => simp [toml_walk_array, h]
    | vInteger i => simp [toml_walk_array, h]
    | vFloat l => simp [toml_walk_array, h]
    | vDatetime => simp [toml_walk_array, h]
    | vBoolean b => simp [toml_walk_array, h]

/-- Witness for C1: the three final-segment cases at concrete tables — key
absent in the empty root, key holding a one-element array, and key holding
an integer. -/
theorem claim_C1_witness :
    (toml_walk_array [] [strBytes "a"] =
      .ok (toml_table_set_by_string [] (strBytes "a") (vArray [vTable []]),
           [.intoArray (strBytes "a") 0]) ∧
     locGet (toml_table_set_by_string [] (strBytes "a") (vArray [vTable []]))
       [.intoArray (strBytes "a") 0] = some []) ∧
    (toml_walk_array [(strBytes "a", vArray [vTable []])] [strBytes "a"] =
      .ok (toml_table_set_by_string [(strBytes "a", vArray [vTable []])] (strBytes "a")
             (vArray ([vTable []] ++ [vTable []])),
           [.intoArray (strBytes "a") 1]) ∧
     locGet (toml_table_set_by_string [(strBytes "a", vArray [vTable []])] (strBytes "a")
              (vArray ([vTable []] ++ [vTable []])))
       [.intoArray (strBytes "a") 1] = some []) ∧
    toml_walk_array [(strBytes "a", vInteger 1)] [strBytes "a"] =
      .error (.e .syn "this key was not an array") :=
  ⟨(claim_C1.1 [] (strBytes "a")).1 rfl,
   ((claim_C1.1 [(strBytes "a", vArray [vTable []])] (strBytes "a")).2.1 [vTable []] rfl),
   (claim_C1.1 [(strBytes "a", vInteger 1)] (strBytes "a")).2.2 (vInteger 1) rfl
     (fun es h => by cases h)⟩

end Toml
